import Mathlib

/-!
Verification development for a Flask + SQLAlchemy blog application
(`src/app.py`): a single `Post` table with list/search/paginate,
detail, create, edit and delete handlers.

Shallow embedding choices:

* Time is an explicit `Nat` argument to each mutating handler, standing
  for the value of `datetime.utcnow()` during that request.
* The database is the list of persisted posts in insertion (storage)
  order together with the next auto-assigned primary key.
* `ORDER BY created_at DESC` (app.py line 65) specifies no secondary
  key; SQL leaves the relative order of ties unspecified, and we model
  it as a stable sort, i.e. ties keep storage order.
* The search filter (app.py lines 70-73) interpolates the raw
  `search_query` into a SQL `LIKE` pattern `%…%`, so `%` and `_` inside
  the query act as wildcards and `\` as the default escape character.
  `likeMatch` embeds PostgreSQL `LIKE` semantics (case-sensitive,
  `%` = any sequence, `_` = any one char, `\c` = the literal char `c`).
* `paginate(page=…, per_page=…, error_out=False)` (flask-sqlalchemy):
  a page number below 1 is clamped to 1, a page past the end yields an
  empty item list; items are a drop/take window of the ordered rows.
* SQLAlchemy's unit of work emits no UPDATE statement for a row none of
  whose attributes has a net value change, so the `onupdate` refresh of
  `updated_at` (app.py line 40) does not fire in that case; `applyEdit`
  embeds exactly this.
* The storage backend is assumed to accept every write (the
  `except`-branches of the handlers model backend failures, which the
  embedding does not trigger).
-/

/-- The persisted `Post` row (app.py lines 34-40).  Timestamps are
modelled as `Nat`. -/
structure Post where
  id : Nat
  title : String
  content : String
  author : String
  created_at : Nat
  updated_at : Nat
deriving Repr, DecidableEq

/-- The database state: rows in insertion order plus the next
auto-assigned primary key. -/
structure DB where
  posts : List Post
  nextId : Nat
deriving Repr, DecidableEq

/-- The observable outcome of a request handler. -/
inductive Resp where
  /-- A redirect issued on success (`redirect(url_for(...))`). -/
  | redirect (target : String)
  /-- A missing form key: `request.form[...]` raises and Flask answers
  HTTP 400 (the spec's ValidationError). -/
  | badRequest
  /-- `get_or_404` failed: HTTP 404 (the spec's NotFound). -/
  | notFound
  /-- A rendered template. -/
  | rendered
deriving Repr, DecidableEq

/-- The submitted form of a write/edit request: each field is present
or absent. -/
structure Form where
  title : Option String
  content : Option String
  author : Option String
deriving Repr, DecidableEq

/-- The query parameters of a listing request (`GET /`), each absent or
a raw string. -/
structure Args where
  search_query : Option String
  page : Option String
deriving Repr, DecidableEq

/-- Whether the character list `q` occurs as a prefix of `s`. -/
def isPrefixL : List Char → List Char → Bool
  | [], _ => true
  | _ :: _, [] => false
  | a :: as, b :: bs => a == b && isPrefixL as bs

/-- Whether the character list `q` occurs as a contiguous substring
of `s`. -/
def isSubstrL (q : List Char) : List Char → Bool
  | [] => isPrefixL q []
  | c :: s => isPrefixL q (c :: s) || isSubstrL q s

/-- All suffixes of a character list, longest first. -/
def suffixes : List Char → List (List Char)
  | [] => [[]]
  | c :: s => (c :: s) :: suffixes s

/-- SQL `LIKE` pattern matching, case-sensitive (PostgreSQL semantics,
the deployed backend of app.py): `%` matches any sequence, `_` matches
any single character, and the default escape character `\` makes the
following pattern character match itself literally (SQLAlchemy's
`.like()` emits no ESCAPE clause, so the default applies).  A pattern
ending in a lone `\` is an error in PostgreSQL ("LIKE pattern must not
end with escape character") and matches nothing here; the handler's
patterns always end in `%`, so that case is unreachable for them.
Everything else matches itself. -/
def likeMatch : List Char → List Char → Bool
  | [], s => s.isEmpty
  | p :: ps, s =>
    if p == '\\' then
      match ps, s with
      | [], _ => false
      | _ :: _, [] => false
      | e :: ps', c :: s' => (e == c) && likeMatch ps' s'
    else if p == '%' then (suffixes s).any (fun s' => likeMatch ps s')
    else
      match s with
      | [] => false
      | c :: s' => (p == '_' || p == c) && likeMatch ps s'

/-- The pattern `f'%{search_query}%'` built at app.py lines 71-72. -/
def likePat (q : String) : List Char := '%' :: (q.data ++ ['%'])

/-- The filter of app.py lines 70-73: `title LIKE %q% OR content
LIKE %q%`. -/
def matchesQuery (q : String) (p : Post) : Bool :=
  likeMatch (likePat q) p.title.data || likeMatch (likePat q) p.content.data

/-- The `ORDER BY created_at DESC` relation of app.py line 65. -/
def createdDesc (x y : Post) : Prop := y.created_at ≤ x.created_at

instance : DecidableRel createdDesc :=
  fun x y => inferInstanceAs (Decidable (y.created_at ≤ x.created_at))

instance : IsTotal Post createdDesc :=
  ⟨fun x y => Nat.le_total y.created_at x.created_at⟩

instance : IsTrans Post createdDesc :=
  ⟨fun _ _ _ h1 h2 => Nat.le_trans h2 h1⟩

/-- The rows in query order: `Post.query.order_by(Post.created_at
.desc())`, modelled as a stable sort of the storage order. -/
def orderedPosts (db : DB) : List Post :=
  List.insertionSort createdDesc db.posts

/-- The ordered rows after the optional search filter.  Python's
`if search_query:` treats only the empty string as absent. -/
def filteredPosts (db : DB) (q : String) : List Post :=
  if q = "" then orderedPosts db
  else (orderedPosts db).filter (matchesQuery q)

/-- `query.paginate(page=…, per_page=…, error_out=False)`: clamp the
page to at least 1, then window the rows. -/
def paginate (items : List Post) (page : Int) (per_page : Nat) : List Post :=
  (items.drop ((max 1 page.toNat - 1) * per_page)).take per_page

/-- The accumulated digit value of a digit string. -/
def digitsToNat (cs : List Char) : Nat :=
  cs.foldl (fun n c => n * 10 + (c.toNat - 48)) 0

/-- Python's `int(str)` as used by `request.args.get('page', 1,
type=int)`: an optional sign followed by at least one digit; anything
else fails, making the handler fall back to the default. -/
def parseInt (s : String) : Option Int :=
  let core : List Char → Option Nat := fun cs =>
    if cs ≠ [] ∧ cs.all Char.isDigit then some (digitsToNat cs) else none
  match s.data with
  | '-' :: cs => (core cs).map (fun n => -(n : Int))
  | '+' :: cs => (core cs).map (fun n => (n : Int))
  | cs => (core cs).map (fun n => (n : Int))

/-- The `GET /` handler (app.py lines 55-83): default the search query
to `''` and the page to 1, filter, order and paginate with
`per_page = 10`.  Returns the items handed to the template. -/
def index (db : DB) (a : Args) : List Post :=
  let q := a.search_query.getD ""
  let pg : Int :=
    match a.page with
    | none => 1
    | some s => (parseInt s).getD 1
  paginate (filteredPosts db q) pg 10

/-- `db.session.get(Post, id)`: the first stored row with the given
primary key. -/
def getById (db : DB) (id : Nat) : Option Post :=
  db.posts.find? (fun p => p.id == id)

/-- The `GET /post/<id>` handler (app.py lines 86-89): `get_or_404`. -/
def post_detail (db : DB) (id : Nat) : Resp :=
  match getById db id with
  | none => Resp.notFound
  | some _ => Resp.rendered

/-- The `POST /write` handler (app.py lines 96-108): reading a missing
form key raises (HTTP 400) before any database action; otherwise a new
row is inserted with both timestamps set to the current time
(the `default=datetime.utcnow` of app.py lines 39-40). -/
def write (db : DB) (f : Form) (now : Nat) : Resp × DB :=
  match f.title, f.content, f.author with
  | some t, some c, some a =>
    let p : Post :=
      { id := db.nextId, title := t, content := c, author := a,
        created_at := now, updated_at := now }
    (Resp.redirect "index", { posts := db.posts ++ [p], nextId := db.nextId + 1 })
  | _, _, _ => (Resp.badRequest, db)

/-- The effect of a committed edit on one row: if the submitted values
leave every attribute unchanged, SQLAlchemy emits no UPDATE and the
`onupdate` hook does not fire; otherwise the three fields are
overwritten and `updated_at` is refreshed (app.py lines 40 and
118-124). -/
def applyEdit (id : Nat) (t c a : String) (now : Nat) (p : Post) : Post :=
  if p.id = id then
    if p.title = t ∧ p.content = c ∧ p.author = a then p
    else { p with title := t, content := c, author := a, updated_at := now }
  else p

/-- The `POST /edit/<id>` handler (app.py lines 114-127): 404 when the
row does not exist, 400 when a form key is missing, otherwise commit
the attribute assignments. -/
def edit (db : DB) (id : Nat) (f : Form) (now : Nat) : Resp × DB :=
  match getById db id with
  | none => (Resp.notFound, db)
  | some _ =>
    match f.title, f.content, f.author with
    | some t, some c, some a =>
      (Resp.redirect "detail",
        { db with posts := db.posts.map (applyEdit id t c a now) })
    | _, _, _ => (Resp.badRequest, db)

/-- The `POST /delete/<id>` handler (app.py lines 133-142): 404 when
the row does not exist, otherwise remove it. -/
def delete (db : DB) (id : Nat) : Resp × DB :=
  match getById db id with
  | none => (Resp.notFound, db)
  | some _ =>
    (Resp.redirect "index",
      { db with posts := db.posts.filter (fun p => p.id != id) })

/-! ### Properties of the embedded LIKE matcher -/

/-- A list is a member of `suffixes s` exactly when it is a suffix
of `s`. -/
theorem mem_suffixes {t s : List Char} : t ∈ suffixes s ↔ t <:+ s := by
  induction s with
  | nil => simp [suffixes]
  | cons c s ih =>
    simp only [suffixes, List.mem_cons, ih, List.suffix_cons_iff]

/-- `isPrefixL` decides the Mathlib prefix relation. -/
theorem isPrefixL_iff {q s : List Char} : isPrefixL q s = true ↔ q <+: s := by
  induction q generalizing s with
  | nil => simp [isPrefixL]
  | cons a as ih =>
    cases s with
    | nil => simp [isPrefixL]
    | cons b bs => simp [isPrefixL, ih, List.cons_prefix_cons]

/-- `isSubstrL q s` checks `isPrefixL q` on every suffix of `s`. -/
theorem isSubstrL_eq_any {q s : List Char} :
    isSubstrL q s = (suffixes s).any (fun t => isPrefixL q t) := by
  induction s with
  | nil => simp [isSubstrL, suffixes]
  | cons c s ih => simp [isSubstrL, suffixes, ih]

/-- `isSubstrL` decides the Mathlib contiguous-substring relation. -/
theorem isSubstrL_iff {q s : List Char} : isSubstrL q s = true ↔ q <:+: s := by
  rw [isSubstrL_eq_any, List.any_eq_true, List.infix_iff_prefix_suffix]
  constructor
  · rintro ⟨t, ht, hp⟩
    exact ⟨t, isPrefixL_iff.mp hp, mem_suffixes.mp ht⟩
  · rintro ⟨t, hp, ht⟩
    exact ⟨t, mem_suffixes.mpr ht, isPrefixL_iff.mpr hp⟩

/-- Unfolding lemma: a leading `%` tries the rest of the pattern on
every suffix. -/
theorem likeMatch_percent_cons {ps : List Char} {s : List Char} :
    likeMatch ('%' :: ps) s = (suffixes s).any (fun t => likeMatch ps t) := by
  cases ps <;> cases s <;> simp [likeMatch, suffixes]

/-- Unfolding lemma: an ordinary leading pattern character never
matches the empty string. -/
theorem likeMatch_cons_nil {p : Char} {ps : List Char}
    (h1 : (p == '\\') = false) (h2 : (p == '%') = false) :
    likeMatch (p :: ps) [] = false := by
  cases ps <;> simp [likeMatch, h1, h2]

/-- Unfolding lemma: an ordinary leading pattern character consumes one
string character. -/
theorem likeMatch_cons_cons {p : Char} {ps : List Char} {c : Char}
    {s : List Char} (h1 : (p == '\\') = false) (h2 : (p == '%') = false) :
    likeMatch (p :: ps) (c :: s) = ((p == '_' || p == c) && likeMatch ps s) := by
  cases ps <;> simp [likeMatch, h1, h2]

/-- On a query free of wildcards and of the escape character, the
pattern `q ++ ['%']` matches exactly the strings that `q` is a prefix
of. -/
theorem likeMatch_literal {q : List Char} (s : List Char)
    (hq : q.all (fun c => c != '%' && c != '_' && c != '\\') = true) :
    likeMatch (q ++ ['%']) s = isPrefixL q s := by
  induction q generalizing s with
  | nil =>
    simp only [List.nil_append, isPrefixL]
    rw [likeMatch_percent_cons, List.any_eq_true]
    exact ⟨[], mem_suffixes.mpr List.nil_suffix, rfl⟩
  | cons a as ih =>
    simp only [List.all_cons, Bool.and_eq_true, bne_iff_ne] at hq
    obtain ⟨⟨⟨ha1, ha2⟩, ha3⟩, has⟩ := hq
    have h1 : (a == '\\') = false := by simpa using ha3
    have h2 : (a == '%') = false := by simpa using ha1
    cases s with
    | nil =>
      simp only [List.cons_append, isPrefixL]
      rw [likeMatch_cons_nil h1 h2]
    | cons b bs =>
      simp only [List.cons_append, isPrefixL]
      rw [likeMatch_cons_cons h1 h2]
      have h3 : (a == '_') = false := by simpa using ha2
      rw [h3, Bool.false_or, ih bs (by simpa using has)]

/-- On a query free of wildcards and of the escape character, the
pattern built by the handler (`likePat`) matches exactly the strings
containing `q` as a contiguous substring. -/
theorem likeMatch_likePat {q : String} (s : List Char)
    (hq : q.data.all (fun c => c != '%' && c != '_' && c != '\\') = true) :
    likeMatch (likePat q) s = isSubstrL q.data s := by
  show likeMatch ('%' :: (q.data ++ ['%'])) s = _
  rw [likeMatch_percent_cons, isSubstrL_eq_any]
  have : (fun t => likeMatch (q.data ++ ['%']) t) =
      (fun t => isPrefixL q.data t) :=
    funext fun t => likeMatch_literal t hq
  rw [this]

/-! ### Helper lemmas about the handlers -/

/-- `applyEdit` never changes the primary key. -/
theorem applyEdit_id (id : Nat) (t c a : String) (now : Nat) (p : Post) :
    (applyEdit id t c a now p).id = p.id := by
  unfold applyEdit
  split
  · split <;> rfl
  · rfl

/-- `find?` commutes with a map that preserves the tested key. -/
theorem find?_map_of_pres {α : Type} {f : α → α} {pr : α → Bool}
    (hf : ∀ x, pr (f x) = pr x) :
    ∀ l : List α, (l.map f).find? pr = (l.find? pr).map f := by
  intro l
  induction l with
  | nil => rfl
  | cons x xs ih =>
    by_cases hx : pr x
    · rw [List.map_cons, List.find?_cons_of_pos _ (by rw [hf]; exact hx),
        List.find?_cons_of_pos _ hx]
      rfl
    · rw [List.map_cons,
        List.find?_cons_of_neg _ (by rw [hf]; simpa using hx),
        List.find?_cons_of_neg _ (by simpa using hx), ih]

/-- If no element of the first list satisfies the predicate, `find?`
on an append searches the second list. -/
theorem find?_append_of_none {α : Type} {pr : α → Bool} {l1 l2 : List α}
    (h : ∀ x ∈ l1, pr x = false) :
    (l1 ++ l2).find? pr = l2.find? pr := by
  rw [List.find?_append]
  have : l1.find? pr = none := List.find?_eq_none.mpr (by
    intro x hx
    simp [h x hx])
  rw [this, Option.none_or]

/-- Every post the listing handler returns is a stored post. -/
theorem mem_of_mem_index {db : DB} {a : Args} {q : Post}
    (h : q ∈ index db a) : q ∈ db.posts := by
  have h1 : q ∈ filteredPosts db (a.search_query.getD "") := by
    have hsub :
        List.Sublist (index db a) (filteredPosts db (a.search_query.getD "")) :=
      (List.take_sublist _ _).trans (List.drop_sublist _ _)
    exact hsub.subset h
  have h2 : q ∈ orderedPosts db := by
    unfold filteredPosts at h1
    split at h1
    · exact h1
    · exact (List.filter_sublist _).subset h1
  exact (List.perm_insertionSort createdDesc db.posts).subset h2

/-! ### Concrete fixtures -/

/-- A stored post whose title contains an `x` between `a` and `b`. -/
def postC1 : Post :=
  { id := 1, title := "axb", content := "y", author := "z",
    created_at := 0, updated_at := 0 }

/-- A one-post database for the search counterexample. -/
def dbC1 : DB := { posts := [postC1], nextId := 2 }

/-- First of two posts sharing a creation timestamp. -/
def postA : Post :=
  { id := 1, title := "a", content := "c", author := "x",
    created_at := 5, updated_at := 5 }

/-- Second of two posts sharing a creation timestamp. -/
def postB : Post :=
  { id := 2, title := "b", content := "d", author := "y",
    created_at := 5, updated_at := 5 }

/-- A database with two equal-timestamp posts in ascending id order. -/
def dbC2 : DB := { posts := [postA, postB], nextId := 3 }

/-- A stored post with title "hello". -/
def postW1 : Post :=
  { id := 1, title := "hello", content := "world", author := "w",
    created_at := 0, updated_at := 0 }

/-- A one-post database for witnesses. -/
def dbW1 : DB := { posts := [postW1], nextId := 2 }

/-! ### Claim C1 -/

/-- Claim C1 is false as stated: with the stored post
(title "axb", content "y") and searchQuery "a%b", the listing contains
the post although "a%b" is not a literal substring of its title or of
its content — the query string is interpolated unescaped into the LIKE
pattern, so its `%` is wildcard-interpreted. -/
theorem C1_counterexample :
    postC1 ∈ index dbC1 { search_query := some "a%b", page := none }
    ∧ ¬ ("a%b".data <:+: postC1.title.data)
    ∧ ¬ ("a%b".data <:+: postC1.content.data) := by
  refine ⟨by decide, ?_, ?_⟩ <;>
  · rw [← isSubstrL_iff]
    decide

/-- Claim C1 (amended): for a non-empty searchQuery containing no LIKE
metacharacter (`%` or `_`) and no escape character (`\`), the filtered
listing contains a stored Post iff the searchQuery is a literal
substring of its title or of its content; for the empty searchQuery no
filter is applied.  (A query containing `%` or `_` is
wildcard-interpreted, as the counterexample shows, and a query
containing `\` is escape-interpreted, since the query is interpolated
unescaped and PostgreSQL's default escape character applies.) -/
theorem C1_amended (db : DB) (q : String) (p : Post)
    (hq : q ≠ "")
    (hlit : q.data.all (fun c => c != '%' && c != '_' && c != '\\') = true) :
    (p ∈ filteredPosts db q ↔
      p ∈ db.posts ∧ (q.data <:+: p.title.data ∨ q.data <:+: p.content.data))
    ∧ filteredPosts db "" = orderedPosts db := by
  have hmem : p ∈ orderedPosts db ↔ p ∈ db.posts :=
    (List.perm_insertionSort createdDesc db.posts).mem_iff
  have hmatch : matchesQuery q p = true ↔
      (q.data <:+: p.title.data ∨ q.data <:+: p.content.data) := by
    rw [matchesQuery, Bool.or_eq_true, likeMatch_likePat _ hlit,
      likeMatch_likePat _ hlit, isSubstrL_iff, isSubstrL_iff]
  constructor
  · unfold filteredPosts
    rw [if_neg hq, List.mem_filter, hmem, hmatch]
  · simp [filteredPosts]

/-- Witness for C1_amended at a concrete database and query. -/
theorem C1_amended_witness :
    ("ell" ≠ "" ∧
      "ell".data.all (fun c => c != '%' && c != '_' && c != '\\') = true)
    ∧ ((postW1 ∈ filteredPosts dbW1 "ell" ↔
          postW1 ∈ dbW1.posts ∧
            ("ell".data <:+: postW1.title.data ∨
              "ell".data <:+: postW1.content.data))
        ∧ filteredPosts dbW1 "" = orderedPosts dbW1) :=
  ⟨⟨by decide, by decide⟩, C1_amended dbW1 "ell" postW1 (by decide) (by decide)⟩

/-! ### Claim C2 -/

/-- Claim C2 is false as stated: two stored posts with equal
`created_at` (ids 1 and 2, inserted in that order) are listed with id 1
first, i.e. in ascending id order — the query orders only by
`created_at DESC` and has no id tie-break. -/
theorem C2_counterexample :
    index dbC2 { search_query := none, page := none } = [postA, postB]
    ∧ postA.created_at = postB.created_at ∧ postA.id < postB.id := by
  decide

/-- Claim C2 (amended): the listing is sorted descending (non-strictly)
by `created_at`, and the ordered rows are a permutation of the stored
rows; but posts with equal `created_at` are NOT ordered by descending
id — the code specifies no tie-break, so their relative order is
whatever the backend produces (storage order in this model). -/
theorem C2_sorted (db : DB) (a : Args) :
    List.Pairwise createdDesc (index db a)
    ∧ (orderedPosts db).Perm db.posts := by
  constructor
  · have hf : List.Pairwise createdDesc
        (filteredPosts db (a.search_query.getD "")) := by
      have hs : List.Pairwise createdDesc (orderedPosts db) :=
        List.sorted_insertionSort createdDesc db.posts
      unfold filteredPosts
      split
      · exact hs
      · exact List.Pairwise.sublist (List.filter_sublist _) hs
    exact List.Pairwise.sublist
      ((List.take_sublist _ _).trans (List.drop_sublist _ _)) hf
  · exact List.perm_insertionSort createdDesc db.posts

/-! ### Claim C3 -/

/-- Twenty-five stored posts with distinct ascending timestamps. -/
def db25 : DB :=
  { posts := (List.range 25).map (fun i =>
      { id := i + 1, title := "t", content := "c", author := "a",
        created_at := i + 1, updated_at := i + 1 }),
    nextId := 26 }

/-- Claim C3: a page strictly beyond the last available page
(`ceil(total/10)`, the `pages` value of flask-sqlalchemy) yields an
empty item list rather than failing (`error_out=False`); concretely,
with 25 stored posts and pageSize 10, page 1 holds the 10 newest,
page 3 the remaining 5, and page 4 is empty. -/
theorem C3_page_overflow (db : DB) (q : String) (pg : Int)
    (h : ((((filteredPosts db q).length + 9) / 10 : Nat) : Int) < pg) :
    paginate (filteredPosts db q) pg 10 = []
    ∧ (index db25 { search_query := none, page := some "1" }).map Post.id
        = [25, 24, 23, 22, 21, 20, 19, 18, 17, 16]
    ∧ (index db25 { search_query := none, page := some "3" }).map Post.id
        = [5, 4, 3, 2, 1]
    ∧ index db25 { search_query := none, page := some "4" } = [] := by
  refine ⟨?_, by decide, by decide, by decide⟩
  unfold paginate
  have hlen : (filteredPosts db q).length ≤ (max 1 pg.toNat - 1) * 10 := by
    omega
  rw [List.drop_eq_nil_of_le hlen, List.take_nil]

/-- Witness for C3_page_overflow: 25 posts, no filter, page 4. -/
theorem C3_page_overflow_witness :
    ((((filteredPosts db25 "").length + 9) / 10 : Nat) : Int) < 4
    ∧ (paginate (filteredPosts db25 "") 4 10 = []
      ∧ (index db25 { search_query := none, page := some "1" }).map Post.id
          = [25, 24, 23, 22, 21, 20, 19, 18, 17, 16]
      ∧ (index db25 { search_query := none, page := some "3" }).map Post.id
          = [5, 4, 3, 2, 1]
      ∧ index db25 { search_query := none, page := some "4" } = []) :=
  ⟨by decide, C3_page_overflow db25 "" 4 (by decide)⟩

/-! ### Claim C4 -/

/-- Claim C4: creating a post with all three form fields submitted
succeeds (redirect to the listing) and a getById of the fresh id
returns a row whose title, content and author are exactly the submitted
values and whose created_at equals its updated_at (both are the request
time).  The hypothesis says the auto-assigned key is not already in
use, which insertion-order key assignment maintains. -/
theorem C4_create_then_get (db : DB) (t c a : String) (now : Nat)
    (hfresh : ∀ p ∈ db.posts, p.id ≠ db.nextId) :
    (write db ⟨some t, some c, some a⟩ now).1 = Resp.redirect "index"
    ∧ getById (write db ⟨some t, some c, some a⟩ now).2 db.nextId =
        some { id := db.nextId, title := t, content := c, author := a,
               created_at := now, updated_at := now } := by
  constructor
  · rfl
  · show (db.posts ++
        [({ id := db.nextId, title := t, content := c, author := a,
            created_at := now, updated_at := now } : Post)]).find?
        (fun p : Post => p.id == db.nextId) = _
    rw [find?_append_of_none (fun x hx => by simpa using hfresh x hx),
      List.find?_cons_of_pos _ (by simp)]

/-- Witness for C4_create_then_get on a one-post database. -/
theorem C4_create_then_get_witness :
    (∀ p ∈ dbW1.posts, p.id ≠ dbW1.nextId)
    ∧ ((write dbW1 ⟨some "T", some "C", some "A"⟩ 7).1 = Resp.redirect "index"
      ∧ getById (write dbW1 ⟨some "T", some "C", some "A"⟩ 7).2 dbW1.nextId =
          some { id := dbW1.nextId, title := "T", content := "C",
                 author := "A", created_at := 7, updated_at := 7 }) :=
  ⟨by decide, C4_create_then_get dbW1 "T" "C" "A" 7 (by decide)⟩

/-! ### Claim C5 -/

/-- The stored post of the no-change-edit counterexample. -/
def postC5 : Post :=
  { id := 1, title := "t", content := "c", author := "a",
    created_at := 0, updated_at := 0 }

/-- A one-post database for the edit claim. -/
def dbC5 : DB := { posts := [postC5], nextId := 2 }

/-- Claim C5 is false as stated: submitting an edit whose values all
equal the stored ones succeeds (redirect to the detail view), yet
`updated_at` keeps its previous value 0 — not strictly greater — since
no attribute has a net change, no UPDATE is emitted and the `onupdate`
hook never fires. -/
theorem C5_counterexample :
    (edit dbC5 1 ⟨some "t", some "c", some "a"⟩ 5).1 = Resp.redirect "detail"
    ∧ getById (edit dbC5 1 ⟨some "t", some "c", some "a"⟩ 5).2 1 = some postC5
    ∧ ¬ (0 < postC5.updated_at) := by decide

/-- Claim C5 (amended): if the post exists, the submitted values differ
from the stored ones in at least one field, and the request time is
strictly later than the post's created_at and than its updated_at, then
the edit succeeds and getById returns the post with the submitted
fields, an unchanged created_at, and updated_at strictly greater than
created_at and than its previous value.  (Without the
difference-in-some-field and later-clock hypotheses the strict
inequalities fail, as the counterexample shows.) -/
theorem C5_amended (db : DB) (id : Nat) (p : Post) (t c a : String)
    (now : Nat)
    (hget : getById db id = some p)
    (hdiff : ¬ (p.title = t ∧ p.content = c ∧ p.author = a))
    (hc : p.created_at < now) (hu : p.updated_at < now) :
    (edit db id ⟨some t, some c, some a⟩ now).1 = Resp.redirect "detail"
    ∧ ∃ p2, getById (edit db id ⟨some t, some c, some a⟩ now).2 id = some p2
        ∧ p2.title = t ∧ p2.content = c ∧ p2.author = a
        ∧ p2.created_at = p.created_at
        ∧ p2.created_at < p2.updated_at
        ∧ p.updated_at < p2.updated_at := by
  have hpid : p.id = id := by simpa using List.find?_some hget
  have hedit : edit db id ⟨some t, some c, some a⟩ now =
      (Resp.redirect "detail",
        ({ db with posts := db.posts.map (applyEdit id t c a now) } : DB)) := by
    unfold edit
    rw [hget]
  refine ⟨by rw [hedit], ?_⟩
  refine ⟨({ p with
              title := t, content := c, author := a, updated_at := now } : Post),
    ?_, rfl, rfl, rfl, rfl, hc, hu⟩
  rw [hedit]
  show (db.posts.map (applyEdit id t c a now)).find? (fun q => q.id == id) = _
  rw [find?_map_of_pres (fun x => by rw [applyEdit_id]) db.posts,
    show db.posts.find? (fun q => q.id == id) = some p from hget]
  show some (applyEdit id t c a now p) = _
  unfold applyEdit
  rw [if_pos hpid, if_neg hdiff]

/-- Witness for C5_amended: a genuine title change at a later time. -/
theorem C5_amended_witness :
    (getById dbC5 1 = some postC5
      ∧ ¬ (postC5.title = "t2" ∧ postC5.content = "c" ∧ postC5.author = "a")
      ∧ postC5.created_at < 5 ∧ postC5.updated_at < 5)
    ∧ ((edit dbC5 1 ⟨some "t2", some "c", some "a"⟩ 5).1 = Resp.redirect "detail"
      ∧ ∃ p2, getById (edit dbC5 1 ⟨some "t2", some "c", some "a"⟩ 5).2 1 = some p2
          ∧ p2.title = "t2" ∧ p2.content = "c" ∧ p2.author = "a"
          ∧ p2.created_at = postC5.created_at
          ∧ p2.created_at < p2.updated_at
          ∧ postC5.updated_at < p2.updated_at) :=
  ⟨⟨by decide, by decide, by decide, by decide⟩,
    C5_amended dbC5 1 postC5 "t2" "c" "a" 5 (by decide) (by decide)
      (by decide) (by decide)⟩

/-! ### Claim C6 -/

/-- Claim C6: a create request whose form has no title field fails —
the missing-key lookup `request.form['title']` raises before any
database action and is answered as HTTP 400, the spec's
ValidationError — and persists nothing: the state is unchanged, so
every listing, in particular its count, is unchanged. -/
theorem C6_missing_title (db : DB) (f : Form) (now : Nat)
    (h : f.title = none) :
    (write db f now).1 = Resp.badRequest
    ∧ (write db f now).2 = db
    ∧ ∀ a, (index (write db f now).2 a).length = (index db a).length := by
  have hw : write db f now = (Resp.badRequest, db) := by
    obtain ⟨ft, fc, fa⟩ := f
    subst h
    cases fc <;> cases fa <;> rfl
  rw [hw]
  exact ⟨rfl, rfl, fun a => rfl⟩

/-- Witness for C6_missing_title. -/
theorem C6_missing_title_witness :
    (Form.title ⟨none, some "c", some "a"⟩ = none)
    ∧ ((write dbW1 ⟨none, some "c", some "a"⟩ 3).1 = Resp.badRequest
      ∧ (write dbW1 ⟨none, some "c", some "a"⟩ 3).2 = dbW1
      ∧ ∀ a, (index (write dbW1 ⟨none, some "c", some "a"⟩ 3).2 a).length
          = (index dbW1 a).length) :=
  ⟨rfl, C6_missing_title dbW1 ⟨none, some "c", some "a"⟩ 3 rfl⟩

/-! ### Claim C7 -/

/-- A mutating request: one of the three write handlers with its
submitted data and request time. -/
inductive Op where
  /-- A `POST /write` request. -/
  | opWrite (f : Form) (now : Nat)
  /-- A `POST /edit/(id)` request. -/
  | opEdit (id : Nat) (f : Form) (now : Nat)
  /-- A `POST /delete/(id)` request. -/
  | opDelete (id : Nat)
deriving Repr, DecidableEq

/-- The state transition of one request (the response is dropped). -/
def applyOp (db : DB) : Op → DB
  | Op.opWrite f now => (write db f now).2
  | Op.opEdit id f now => (edit db id f now).2
  | Op.opDelete id => (delete db id).2

/-- Run a sequence of requests against a state. -/
def runOps (db : DB) (ops : List Op) : DB := ops.foldl applyOp db

/-- Whether an optional form field, if present, is non-empty. -/
def fieldOk (o : Option String) : Bool :=
  match o with
  | none => true
  | some s => s != ""

/-- Whether every submitted field of a form is non-empty. -/
def formOk (f : Form) : Bool :=
  fieldOk f.title && fieldOk f.content && fieldOk f.author

/-- Whether a request submits only non-empty field values. -/
def opOk : Op → Bool
  | Op.opWrite f _ => formOk f
  | Op.opEdit _ f _ => formOk f
  | Op.opDelete _ => true

/-- Whether a stored post has non-empty title, content and author. -/
def postOk (p : Post) : Bool :=
  p.title != "" && p.content != "" && p.author != ""

/-- The empty initial database. -/
def emptyDB : DB := { posts := [], nextId := 1 }

/-- Claim C7 is false as stated: the handlers perform no emptiness
validation — `nullable=False` only rejects NULL — so a create whose
title field is present but the empty string succeeds and persists a
post with an empty title. -/
theorem C7_counterexample :
    (write emptyDB ⟨some "", some "c", some "a"⟩ 0).1 = Resp.redirect "index"
    ∧ getById (write emptyDB ⟨some "", some "c", some "a"⟩ 0).2 1 =
        some { id := 1, title := "", content := "c", author := "a",
               created_at := 0, updated_at := 0 } := by decide

/-- One request keeps every stored field non-empty, provided its own
submitted values are non-empty. -/
theorem applyOp_preserves_postOk (db : DB) (op : Op)
    (hdb : ∀ p ∈ db.posts, postOk p = true) (hop : opOk op = true) :
    ∀ p ∈ (applyOp db op).posts, postOk p = true := by
  cases op with
  | opWrite f now =>
    obtain ⟨ft, fc, fa⟩ := f
    cases ft with
    | none => cases fc <;> cases fa <;> exact hdb
    | some t =>
      cases fc with
      | none => cases fa <;> exact hdb
      | some c =>
        cases fa with
        | none => exact hdb
        | some a =>
          intro p hp
          rcases List.mem_append.mp hp with h1 | h2
          · exact hdb p h1
          · have hpe := List.mem_singleton.mp h2
            subst hpe
            simp only [opOk, formOk, fieldOk] at hop
            simpa [postOk] using hop
  | opEdit id f now =>
    rcases hg : getById db id with _ | q
    · have : (edit db id f now).2 = db := by
        unfold edit
        rw [hg]
      intro p hp
      rw [show applyOp db (Op.opEdit id f now) = (edit db id f now).2 from rfl,
        this] at hp
      exact hdb p hp
    · obtain ⟨ft, fc, fa⟩ := f
      cases ft with
      | none =>
        have : (edit db id ⟨none, fc, fa⟩ now).2 = db := by
          unfold edit
          rw [hg]
        intro p hp
        rw [show applyOp db (Op.opEdit id ⟨none, fc, fa⟩ now)
            = (edit db id ⟨none, fc, fa⟩ now).2 from rfl, this] at hp
        exact hdb p hp
      | some t =>
        cases fc with
        | none =>
          have : (edit db id ⟨some t, none, fa⟩ now).2 = db := by
            unfold edit
            rw [hg]
          intro p hp
          rw [show applyOp db (Op.opEdit id ⟨some t, none, fa⟩ now)
              = (edit db id ⟨some t, none, fa⟩ now).2 from rfl, this] at hp
          exact hdb p hp
        | some c =>
          cases fa with
          | none =>
            have : (edit db id ⟨some t, some c, none⟩ now).2 = db := by
              unfold edit
              rw [hg]
            intro p hp
            rw [show applyOp db (Op.opEdit id ⟨some t, some c, none⟩ now)
                = (edit db id ⟨some t, some c, none⟩ now).2 from rfl, this] at hp
            exact hdb p hp
          | some a =>
            have he : (edit db id ⟨some t, some c, some a⟩ now).2 =
                ({ db with posts := db.posts.map (applyEdit id t c a now) } : DB) := by
              unfold edit
              rw [hg]
            intro p hp
            rw [show applyOp db (Op.opEdit id ⟨some t, some c, some a⟩ now)
                = (edit db id ⟨some t, some c, some a⟩ now).2 from rfl, he] at hp
            obtain ⟨x, hx, hxe⟩ := List.mem_map.mp hp
            subst hxe
            simp only [opOk, formOk, fieldOk] at hop
            unfold applyEdit
            split
            · split
              · exact hdb x hx
              · simpa [postOk] using hop
            · exact hdb x hx
  | opDelete id =>
    rcases hg : getById db id with _ | q
    · have : (delete db id).2 = db := by
        unfold delete
        rw [hg]
      intro p hp
      rw [show applyOp db (Op.opDelete id) = (delete db id).2 from rfl,
        this] at hp
      exact hdb p hp
    · have : (delete db id).2 =
          ({ db with posts := db.posts.filter (fun p => p.id != id) } : DB) := by
        unfold delete
        rw [hg]
      intro p hp
      rw [show applyOp db (Op.opDelete id) = (delete db id).2 from rfl,
        this] at hp
      exact hdb p (List.mem_filter.mp hp).1

/-- Claim C7 (amended): the handlers preserve field non-emptiness but
do not enforce it.  Starting from a state whose posts all have
non-empty title, content and author, any sequence of create/edit/delete
requests submitting only non-empty values leaves every persisted post
with non-empty fields.  (Enforcement is absent: the counterexample
persists an empty title.) -/
theorem C7_amended (db : DB) (ops : List Op)
    (hdb : ∀ p ∈ db.posts, postOk p = true)
    (hops : ∀ op ∈ ops, opOk op = true) :
    ∀ p ∈ (runOps db ops).posts, postOk p = true := by
  induction ops generalizing db with
  | nil => exact hdb
  | cons op ops ih =>
    exact ih (applyOp db op)
      (applyOp_preserves_postOk db op hdb (hops op (List.mem_cons_self op ops)))
      (fun o ho => hops o (List.mem_cons_of_mem _ ho))

/-- Witness for C7_amended: one non-empty create on the empty state. -/
theorem C7_amended_witness :
    ((∀ p ∈ emptyDB.posts, postOk p = true)
      ∧ (∀ op ∈ [Op.opWrite ⟨some "x", some "y", some "z"⟩ 0], opOk op = true))
    ∧ (∀ p ∈ (runOps emptyDB [Op.opWrite ⟨some "x", some "y", some "z"⟩ 0]).posts,
        postOk p = true) :=
  ⟨⟨by decide, by decide⟩,
    C7_amended emptyDB [Op.opWrite ⟨some "x", some "y", some "z"⟩ 0]
      (by decide) (by decide)⟩

/-! ### Claim C8 -/

/-- Claim C8: the listing handler is total and defaults tolerantly: an
absent page parameter and a page parameter that fails integer parsing
are both treated as page 1, and an absent search_query is the same as
the empty one, which applies no filter. -/
theorem C8_listing_defaults (db : DB) (sq : Option String) (s : String)
    (pg : Option String) (h : parseInt s = none) :
    index db { search_query := sq, page := none }
        = index db { search_query := sq, page := some "1" }
    ∧ index db { search_query := sq, page := some s }
        = index db { search_query := sq, page := some "1" }
    ∧ index db { search_query := none, page := pg }
        = index db { search_query := some "", page := pg }
    ∧ filteredPosts db "" = orderedPosts db := by
  have h1 : parseInt "1" = some 1 := by decide
  refine ⟨?_, ?_, rfl, by simp [filteredPosts]⟩
  · show paginate (filteredPosts db (sq.getD "")) 1 10
        = paginate (filteredPosts db (sq.getD "")) ((parseInt "1").getD 1) 10
    rw [h1]
    rfl
  · show paginate (filteredPosts db (sq.getD "")) ((parseInt s).getD 1) 10
        = paginate (filteredPosts db (sq.getD "")) ((parseInt "1").getD 1) 10
    rw [h, h1]
    rfl

/-- Witness for C8_listing_defaults with an unparseable page value. -/
theorem C8_listing_defaults_witness :
    parseInt "abc" = none
    ∧ (index dbW1 { search_query := none, page := none }
          = index dbW1 { search_query := none, page := some "1" }
      ∧ index dbW1 { search_query := none, page := some "abc" }
          = index dbW1 { search_query := none, page := some "1" }
      ∧ index dbW1 { search_query := none, page := none }
          = index dbW1 { search_query := some "", page := none }
      ∧ filteredPosts dbW1 "" = orderedPosts dbW1) :=
  ⟨by decide, C8_listing_defaults dbW1 none "abc" none (by decide)⟩

/-! ### Claim C9 -/

/-- Claim C9: deleting an existing post succeeds (redirect to the
listing); afterwards getById finds nothing, the detail handler answers
HTTP 404, and no listing page contains a post with the deleted id. -/
theorem C9_delete_then_get (db : DB) (id : Nat) (p : Post)
    (h : getById db id = some p) :
    (delete db id).1 = Resp.redirect "index"
    ∧ getById (delete db id).2 id = none
    ∧ post_detail (delete db id).2 id = Resp.notFound
    ∧ ∀ a q, q ∈ index (delete db id).2 a → q.id ≠ id := by
  have hd : delete db id = (Resp.redirect "index",
      ({ db with posts := db.posts.filter (fun p => p.id != id) } : DB)) := by
    unfold delete
    rw [h]
  have hget2 : getById (delete db id).2 id = none := by
    rw [hd]
    show (db.posts.filter (fun p => p.id != id)).find? (fun p => p.id == id)
        = none
    rw [List.find?_eq_none]
    intro x hx
    have hne := (List.mem_filter.mp hx).2
    simp only [bne_iff_ne, ne_eq] at hne
    simp [hne]
  refine ⟨by rw [hd], hget2, ?_, ?_⟩
  · unfold post_detail
    rw [hget2]
  · intro a q hq
    have hmem := mem_of_mem_index hq
    rw [hd] at hmem
    have hne := (List.mem_filter.mp hmem).2
    simpa using hne

/-- Witness for C9_delete_then_get on a one-post database. -/
theorem C9_delete_then_get_witness :
    getById dbW1 1 = some postW1
    ∧ ((delete dbW1 1).1 = Resp.redirect "index"
      ∧ getById (delete dbW1 1).2 1 = none
      ∧ post_detail (delete dbW1 1).2 1 = Resp.notFound
      ∧ ∀ a q, q ∈ index (delete dbW1 1).2 a → q.id ≠ 1) :=
  ⟨by decide, C9_delete_then_get dbW1 1 postW1 (by decide)⟩

/-! ### Claim C10 -/

/-- Claim C10: an edit that submits exactly the stored title, content
and author leaves every attribute without a net change, so the flush
emits no UPDATE, the `onupdate` hook does not fire, and the whole state
— `updated_at` included — is unchanged; the handler still redirects to
the detail view.  The Nodup hypothesis is the primary-key uniqueness of
the table. -/
theorem C10_noop_edit (db : DB) (id : Nat) (p : Post) (now : Nat)
    (hget : getById db id = some p)
    (hids : (db.posts.map Post.id).Nodup) :
    edit db id ⟨some p.title, some p.content, some p.author⟩ now =
      (Resp.redirect "detail", db) := by
  have hpmem : p ∈ db.posts := List.mem_of_find?_eq_some hget
  have hpid : p.id = id := by simpa using List.find?_some hget
  have hmap :
      db.posts.map (applyEdit id p.title p.content p.author now) = db.posts := by
    have hfix : ∀ x ∈ db.posts,
        applyEdit id p.title p.content p.author now x = x := by
      intro x hx
      unfold applyEdit
      split
      · next hxid =>
        have hxp : x = p :=
          List.inj_on_of_nodup_map hids hx hpmem (hxid.trans hpid.symm)
        subst hxp
        rw [if_pos ⟨rfl, rfl, rfl⟩]
      · rfl
    rw [List.map_congr_left hfix]
    simp
  unfold edit
  rw [hget]
  show (Resp.redirect "detail",
      ({ db with posts :=
          db.posts.map (applyEdit id p.title p.content p.author now) } : DB))
    = (Resp.redirect "detail", db)
  rw [hmap]

/-- Witness for C10_noop_edit on a one-post database. -/
theorem C10_noop_edit_witness :
    (getById dbW1 1 = some postW1 ∧ (dbW1.posts.map Post.id).Nodup)
    ∧ edit dbW1 1 ⟨some postW1.title, some postW1.content, some postW1.author⟩ 9
        = (Resp.redirect "detail", dbW1) :=
  ⟨⟨by decide, by decide⟩, C10_noop_edit dbW1 1 postW1 9 (by decide) (by decide)⟩
